import Mathlib

/-!
Verification of the write-ahead-logged key-value store in
`distributedDataStore/main.go`.

The Go code is embedded shallowly:
- byte sequences are `List Nat`,
- the in-memory `map[string][]byte` is an association list with
  lookup/insert/erase functions,
- the `Database` struct is a Lean structure; methods that mutate the
  receiver and return an `error` become functions returning
  `Database × Option err`,
- file I/O is explicit: the active log file's contents are a byte list in
  the state, and `Set` takes the outcome of each of its two `Write` calls
  as a parameter (Go write errors are environment-determined),
- `ReplayWriteAheadLog` reads the file at strictly increasing offsets of
  an immutable file, which is embedded as structural recursion on the
  not-yet-consumed suffix of the byte list.
-/

namespace DataStore

/-- Byte sequences (Go `[]byte` / `string` contents). -/
abbrev Bytes := List Nat

/-- The three operation constants `INSERT = 0`, `UPDATE = 1`, `DELETE = 2`
from `main.go`. -/
inductive Op where
  | insert
  | update
  | delete
deriving DecidableEq, Repr

/-- Numeric value of an operation constant (`iota` order in `main.go`). -/
def Op.toNat : Op → Nat
  | .insert => 0
  | .update => 1
  | .delete => 2

/-- Inverse of `Op.toNat` on `{0, 1, 2}`. -/
def opOfNat (n : Nat) : Op :=
  if n = 0 then .insert else if n = 1 then .update else .delete

/-- A `contract.LogEntry` record: operation, key, value. -/
structure LogEntry where
  op : Op
  key : Bytes
  value : Bytes
deriving DecidableEq, Repr

/-- The in-memory map `map[string][]byte`, as an association list with
unique keys maintained by `setKV`. -/
abbrev Map := List (Bytes × Bytes)

/-- Lookup `val, ok := db.data[key]`. -/
def getKV (m : Map) (k : Bytes) : Option Bytes :=
  match m with
  | [] => none
  | (k', v) :: rest => if k' = k then some v else getKV rest k

/-- Go map assignment `m[k] = v`: replace in place if present, else add. -/
def setKV (m : Map) (k : Bytes) (v : Bytes) : Map :=
  match m with
  | [] => [(k, v)]
  | (k', v') :: rest => if k' = k then (k, v) :: rest else (k', v') :: setKV rest k v

/-- Go `delete(m, k)`: remove every binding of `k`. -/
def delKV (m : Map) (k : Bytes) : Map :=
  match m with
  | [] => []
  | (k', v') :: rest => if k' = k then delKV rest k else (k', v') :: delKV rest k

/-- `binary.LittleEndian.PutUint32`: the 4 little-endian bytes of `n`. -/
def encodeU32LE (n : Nat) : Bytes :=
  [n % 256, n / 256 % 256, n / 65536 % 256, n / 16777216 % 256]

/-- `binary.LittleEndian.Uint32`: read 4 little-endian bytes. -/
def readU32LE (bs : Bytes) : Nat :=
  match bs with
  | b0 :: b1 :: b2 :: b3 :: _ => b0 + 256 * b1 + 65536 * b2 + 16777216 * b3
  | _ => 0

/-- Modelled from the spec: `proto.Marshal` for `contract.LogEntry`
(the generated `contract` package and `contract/log.proto` are not in
`src/`).  Per spec §4.1 the encoding is a deterministic, self-describing
binary serialization of `{operation, key, value}` whose exact layout is an
implementation choice but must round-trip: one operation byte, a 4-byte
little-endian key length, the key bytes, then the value bytes. -/
def encodeEntry (e : LogEntry) : Bytes :=
  e.op.toNat :: (encodeU32LE e.key.length ++ (e.key ++ e.value))

/-- Modelled from the spec: `proto.Unmarshal` for `contract.LogEntry`.
Per spec §4.1, decoding fails (`CorruptEntry`) when the bytes do not
parse: truncated input, or an invalid operation tag. -/
def decodeEntry (bs : Bytes) : Option LogEntry :=
  match bs with
  | [] => none
  | b :: rest =>
    if b ≤ 2 ∧ 4 ≤ rest.length then
      if readU32LE (rest.take 4) ≤ (rest.drop 4).length then
        some { op := opOfNat b,
               key := (rest.drop 4).take (readU32LE (rest.take 4)),
               value := (rest.drop 4).drop (readU32LE (rest.take 4)) }
      else none
    else none

/-- A framed record on disk: 4-byte little-endian length prefix, then the
payload (spec §6, `Set` lines 106-117). -/
def frameOf (payload : Bytes) : Bytes :=
  encodeU32LE payload.length ++ payload

/-- The on-disk bytes of a sequence of log entries: concatenated framed
encoded records. -/
def framesOf (es : List LogEntry) : Bytes :=
  (es.map (fun e => frameOf (encodeEntry e))).flatten

/-- The encoded payload of an entry fits the `uint32` length prefix. -/
def entryOk (e : LogEntry) : Prop :=
  (encodeEntry e).length < 4294967296

instance (e : LogEntry) : Decidable (entryOk e) := by
  unfold entryOk; infer_instance

/-- The `Database` struct of `main.go`.  `logFilePtr` becomes the flag
`fileOpen`; the active file's bytes are `fileContents`; `rotatedFiles`
records each rename performed by `rotateLogFile` (new name, contents). -/
structure Database where
  data : Map
  writeAhead : List LogEntry
  logFile : String
  fileOpen : Bool
  fileContents : Bytes
  rotatedFiles : List (String × Bytes)
  logFileSize : Nat
  rotateSize : Nat
deriving DecidableEq, Repr

/-- `NewDatabase(logFile, rotateSize)`. -/
def NewDatabase (logFile : String) (rotateSize : Nat) : Database :=
  { data := [], writeAhead := [], logFile := logFile, fileOpen := false,
    fileContents := [], rotatedFiles := [], logFileSize := 0,
    rotateSize := rotateSize }

/-- Error type for `Set` (Go `error` from `File.Write`). -/
inductive IoError where
  | ioError
deriving DecidableEq, Repr

/-- Error type for replay (Go `error` from `proto.Unmarshal`). -/
inductive ReplayError where
  | corruptEntry
deriving DecidableEq, Repr

/-- Environment of one `Set` call: whether each of the two `File.Write`
calls succeeds, and the wall-clock timestamp string a rotation would use
(`time.Now().Format("20060102_150405")`). -/
structure SetIO where
  headerWriteOk : Bool
  payloadWriteOk : Bool
  timestamp : String
deriving DecidableEq, Repr

/-- `rotateLogFile` (lines 131-153): close the handle, rename the file to
`<path>_<timestamp>`, open a fresh file at `<path>`, reset the size
counter.  Close/rename/reopen are assumed to succeed (in Go a rename or
reopen failure is `log.Fatal`). -/
def rotateLogFile (db : Database) (ts : String) : Database :=
  { db with
    rotatedFiles := db.rotatedFiles ++ [(db.logFile ++ "_" ++ ts, db.fileContents)],
    fileContents := [],
    fileOpen := true,
    logFileSize := 0 }

/-- The tail of `Set` after the log entry is chosen (lines 94-128):
append to `writeAhead`, assign the map, and, when the file is open, write
the length prefix and payload (each write can fail), bump the size
counter, and rotate when it reaches the threshold. -/
def setApply (db : Database) (key value : Bytes) (e : LogEntry) (io : SetIO) :
    Database × Option IoError :=
  let db1 := { db with writeAhead := db.writeAhead ++ [e],
                       data := setKV db.data key value }
  if db1.fileOpen then
    let logData := encodeEntry e
    if io.headerWriteOk then
      let db2 := { db1 with fileContents := db1.fileContents ++ encodeU32LE logData.length }
      if io.payloadWriteOk then
        let db3 := { db2 with fileContents := db2.fileContents ++ logData,
                              logFileSize := db2.logFileSize + (logData.length + 4) }
        if db3.rotateSize ≤ db3.logFileSize then
          (rotateLogFile db3 io.timestamp, none)
        else (db3, none)
      else (db2, some IoError.ioError)
    else (db1, some IoError.ioError)
  else (db1, none)

/-- `Set` (lines 68-129): present-and-different → UPDATE, absent →
INSERT, present-and-identical → no-op returning `nil`. -/
def Set (db : Database) (key value : Bytes) (io : SetIO) :
    Database × Option IoError :=
  match getKV db.data key with
  | some val =>
    if val = value then (db, none)
    else setApply db key value { op := Op.update, key := key, value := value } io
  | none => setApply db key value { op := Op.insert, key := key, value := value } io

/-- The log entry `Set` constructs for key `k` and value `v` against map
state `m` (lines 75-91): UPDATE when the key is present, INSERT when
absent. -/
def mkSetEntry (m : Map) (k v : Bytes) : LogEntry :=
  match getKV m k with
  | some _ => { op := Op.update, key := k, value := v }
  | none => { op := Op.insert, key := k, value := v }

/-- `Get` (lines 155-161): pure in-memory lookup. -/
def Get (db : Database) (key : Bytes) : Option Bytes :=
  getKV db.data key

/-- `Delete` (lines 163-168): removes the key from the in-memory map
only; nothing is logged. -/
def Delete (db : Database) (key : Bytes) : Database :=
  { db with data := delKV db.data key }

/-- The replay loop of `ReplayWriteAheadLog` (lines 191-221) on the
not-yet-consumed bytes: read a 4-byte length prefix (fewer than 4 bytes
left = `io.EOF` → stop), read that many payload bytes (fewer left =
`io.EOF` → stop), `proto.Unmarshal` (failure aborts with the error),
then `db.data[entry.Key] = entry.Value` and continue at the next offset.
Returns the resulting map and the error, mirroring the in-place mutation
of `db.data` plus the Go return value. -/
def replayLoop (bs : Bytes) (m : Map) : Map × Option ReplayError :=
  if h4 : bs.length < 4 then (m, none)
  else if hp : (bs.drop 4).length < readU32LE (bs.take 4) then (m, none)
  else
    match decodeEntry ((bs.drop 4).take (readU32LE (bs.take 4))) with
    | none => (m, some ReplayError.corruptEntry)
    | some e =>
      replayLoop ((bs.drop 4).drop (readU32LE (bs.take 4))) (setKV m e.key e.value)
termination_by bs.length
decreasing_by
  simp only [List.length_drop] at *
  omega

/-- `ReplayWriteAheadLog` (lines 170-224): replay the active log file
into `db.data`. -/
def ReplayWriteAheadLog (db : Database) : Database × Option ReplayError :=
  let r := replayLoop db.fileContents db.data
  ({ db with data := r.1 }, r.2)

/-- One tick of the background flusher goroutine in `main` (lines
290-318): re-marshal every entry of `db.writeAhead`, concatenate the
payloads (no length prefixes), write them to the log file, then `Sync`
(which adds no bytes). -/
def flushTick (db : Database) : Database :=
  { db with fileContents := db.fileContents ++ (db.writeAhead.map encodeEntry).flatten }

/-- The value of the last entry for key `k` in a list of log entries, if
any entry mentions `k`. -/
def lastWrite (es : List LogEntry) (k : Bytes) : Option Bytes :=
  match es with
  | [] => none
  | e :: rest =>
    match lastWrite rest k with
    | some v => some v
    | none => if e.key = k then some e.value else none

/-- Replay's per-entry action folded over a list of entries
(`db.data[entry.Key] = entry.Value`, line 219, for each record in log
order). -/
def applyEntries (es : List LogEntry) (m : Map) : Map :=
  es.foldl (fun m e => setKV m e.key e.value) m

/-! ## Basic lemmas -/

theorem encodeU32LE_length (n : Nat) : (encodeU32LE n).length = 4 := rfl

theorem readU32LE_encodeU32LE (n : Nat) (h : n < 4294967296) :
    readU32LE (encodeU32LE n) = n := by
  simp only [encodeU32LE, readU32LE]
  omega

theorem opOfNat_toNat (o : Op) : opOfNat o.toNat = o := by
  cases o <;> rfl

theorem op_toNat_le (o : Op) : o.toNat ≤ 2 := by
  cases o <;> simp [Op.toNat]

theorem encodeEntry_length (e : LogEntry) :
    (encodeEntry e).length = 5 + e.key.length + e.value.length := by
  simp only [encodeEntry, List.length_cons, List.length_append, encodeU32LE_length]
  omega

theorem entryOk_key_lt (e : LogEntry) (h : entryOk e) :
    e.key.length < 4294967296 := by
  unfold entryOk at h
  rw [encodeEntry_length] at h
  omega

/-- Decoding is a left inverse of encoding whenever the key length fits
the 4-byte field. -/
theorem decodeEntry_encodeEntry (e : LogEntry) (h : e.key.length < 4294967296) :
    decodeEntry (encodeEntry e) = some e := by
  have htake : (encodeU32LE e.key.length ++ (e.key ++ e.value)).take 4
      = encodeU32LE e.key.length :=
    List.take_left' (encodeU32LE_length _)
  have hdrop : (encodeU32LE e.key.length ++ (e.key ++ e.value)).drop 4
      = e.key ++ e.value :=
    List.drop_left' (encodeU32LE_length _)
  simp only [decodeEntry, encodeEntry, htake, hdrop,
    readU32LE_encodeU32LE _ h]
  rw [if_pos, if_pos]
  · simp [opOfNat_toNat, List.take_left, List.drop_left]
  · simp
  · refine ⟨op_toNat_le e.op, ?_⟩
    simp only [List.length_append, encodeU32LE_length]
    omega

/-! ## Map lemmas -/

theorem getKV_setKV_self (m : Map) (k : Bytes) (v : Bytes) :
    getKV (setKV m k v) k = some v := by
  induction m with
  | nil => simp [setKV, getKV]
  | cons p rest ih =>
    obtain ⟨k', v'⟩ := p
    by_cases h : k' = k
    · simp [setKV, getKV, h]
    · simp [setKV, getKV, h, ih]

theorem getKV_setKV_ne (m : Map) (k k' : Bytes) (v : Bytes) (h : k ≠ k') :
    getKV (setKV m k v) k' = getKV m k' := by
  induction m with
  | nil => simp [setKV, getKV, h]
  | cons p rest ih =>
    obtain ⟨k₀, v₀⟩ := p
    by_cases h₀ : k₀ = k
    · subst h₀
      simp [setKV, getKV, h]
    · simp only [setKV, if_neg h₀, getKV]
      by_cases h₁ : k₀ = k'
      · simp [h₁]
      · simp [h₁, ih]

theorem getKV_delKV_self (m : Map) (k : Bytes) :
    getKV (delKV m k) k = none := by
  induction m with
  | nil => simp [delKV, getKV]
  | cons p rest ih =>
    obtain ⟨k', v'⟩ := p
    by_cases h : k' = k
    · simp [delKV, h, ih]
    · simp [delKV, getKV, h, ih]

/-! ## Replay loop lemmas -/

theorem replayLoop_nil (m : Map) : replayLoop [] m = (m, none) := by
  rw [replayLoop]
  simp

/-- A log shorter than a full 4-byte length prefix replays to the
unchanged map with no error (the `io.EOF` break on the prefix read). -/
theorem replayLoop_short (bs : Bytes) (m : Map) (h : bs.length < 4) :
    replayLoop bs m = (m, none) := by
  rw [replayLoop]
  simp [h]

/-- A log whose first length prefix promises more payload bytes than
remain replays to the unchanged map with no error (the `io.EOF` break on
the payload read). -/
theorem replayLoop_torn (bs : Bytes) (m : Map)
    (h4 : 4 ≤ bs.length) (hp : (bs.drop 4).length < readU32LE (bs.take 4)) :
    replayLoop bs m = (m, none) := by
  rw [replayLoop]
  rw [dif_neg (by omega)]
  rw [dif_pos hp]

/-- Stepping the replay loop over one complete framed record whose
payload decodes: the entry is applied with `setKV` (line 219) and the
loop continues after the record. -/
theorem replayLoop_frame (p rest : Bytes) (m : Map) (e : LogEntry)
    (hd : decodeEntry p = some e) (hlen : p.length < 4294967296) :
    replayLoop (frameOf p ++ rest) m = replayLoop rest (setKV m e.key e.value) := by
  have hassoc : frameOf p ++ rest = encodeU32LE p.length ++ (p ++ rest) := by
    simp [frameOf]
  have htake : (encodeU32LE p.length ++ (p ++ rest)).take 4 = encodeU32LE p.length :=
    List.take_left' (encodeU32LE_length _)
  have hdrop : (encodeU32LE p.length ++ (p ++ rest)).drop 4 = p ++ rest :=
    List.drop_left' (encodeU32LE_length _)
  rw [replayLoop.eq_def, hassoc]
  rw [dif_neg (by simp [List.length_append, encodeU32LE_length])]
  simp only [htake, hdrop, readU32LE_encodeU32LE _ hlen]
  rw [dif_neg (by simp [List.length_append])]
  simp only [List.take_left, List.drop_left, hd]

/-- Stepping the replay loop over one complete framed record whose
payload fails to decode: replay aborts with `CorruptEntry`, leaving the
map as it stood. -/
theorem replayLoop_frame_corrupt (p rest : Bytes) (m : Map)
    (hd : decodeEntry p = none) (hlen : p.length < 4294967296) :
    replayLoop (frameOf p ++ rest) m = (m, some ReplayError.corruptEntry) := by
  have hassoc : frameOf p ++ rest = encodeU32LE p.length ++ (p ++ rest) := by
    simp [frameOf]
  have htake : (encodeU32LE p.length ++ (p ++ rest)).take 4 = encodeU32LE p.length :=
    List.take_left' (encodeU32LE_length _)
  have hdrop : (encodeU32LE p.length ++ (p ++ rest)).drop 4 = p ++ rest :=
    List.drop_left' (encodeU32LE_length _)
  rw [replayLoop.eq_def, hassoc]
  rw [dif_neg (by simp [List.length_append, encodeU32LE_length])]
  simp only [htake, hdrop, readU32LE_encodeU32LE _ hlen]
  rw [dif_neg (by simp [List.length_append])]
  simp only [List.take_left, hd]

theorem framesOf_cons (e : LogEntry) (es : List LogEntry) :
    framesOf (e :: es) = frameOf (encodeEntry e) ++ framesOf es := by
  simp [framesOf]

theorem applyEntries_cons (e : LogEntry) (es : List LogEntry) (m : Map) :
    applyEntries (e :: es) m = applyEntries es (setKV m e.key e.value) := rfl

/-- Replaying a well-formed framed log followed by arbitrary extra bytes
applies every entry in order and then continues on the extra bytes. -/
theorem replayLoop_framesOf_append (es : List LogEntry) (rest : Bytes) (m : Map)
    (hok : ∀ e ∈ es, entryOk e) :
    replayLoop (framesOf es ++ rest) m = replayLoop rest (applyEntries es m) := by
  induction es generalizing m with
  | nil => simp [framesOf, applyEntries]
  | cons e es ih =>
    have he : entryOk e := hok e (by simp)
    have hkey := entryOk_key_lt e he
    have hrest : ∀ x ∈ es, entryOk x := fun x hx => hok x (List.mem_cons_of_mem e hx)
    rw [framesOf_cons, List.append_assoc,
      replayLoop_frame (encodeEntry e) (framesOf es ++ rest) m e
        (decodeEntry_encodeEntry e hkey) he,
      ih (setKV m e.key e.value) hrest, applyEntries_cons]

/-- Replaying a well-formed framed log applies every entry in order and
reports no error. -/
theorem replayLoop_framesOf (es : List LogEntry) (m : Map)
    (hok : ∀ e ∈ es, entryOk e) :
    replayLoop (framesOf es) m = (applyEntries es m, none) := by
  have := replayLoop_framesOf_append es [] m hok
  simpa [replayLoop_nil] using this

/-! ## Last-write lemmas -/

theorem getKV_applyEntries (es : List LogEntry) (m : Map) (k : Bytes) :
    getKV (applyEntries es m) k =
      match lastWrite es k with
      | some v => some v
      | none => getKV m k := by
  induction es generalizing m with
  | nil => simp [applyEntries, lastWrite]
  | cons e es ih =>
    rw [applyEntries_cons, ih]
    show _ = (match lastWrite (e :: es) k with
      | some v => some v
      | none => getKV m k)
    rw [lastWrite]
    cases h : lastWrite es k with
    | some v => simp
    | none =>
      by_cases hk : e.key = k
      · simp [hk, getKV_setKV_self]
      · simp [hk, getKV_setKV_ne _ _ _ _ hk]

theorem lastWrite_append_singleton (es : List LogEntry) (e : LogEntry) (k : Bytes) :
    lastWrite (es ++ [e]) k =
      match (if e.key = k then some e.value else none) with
      | some v => some v
      | none => lastWrite es k := by
  induction es with
  | nil =>
    simp only [List.nil_append, lastWrite]
    cases hif : (if e.key = k then some e.value else none) <;> simp
  | cons x es ih =>
    simp only [List.cons_append, lastWrite, List.append_eq]
    rw [ih]
    cases hl : lastWrite es k <;>
      cases hif : (if e.key = k then some e.value else none) <;> simp

/-! ## `Set` characterizations -/

/-- A `Set` whose key already holds a byte-identical value is a complete
no-op returning `nil` (lines 88-91). -/
theorem Set_noop (db : Database) (k v : Bytes) (io : SetIO)
    (h : getKV db.data k = some v) :
    Set db k v io = (db, none) := by
  simp [Set, h]

/-- A logging `Set` (file open, both writes succeed) that stays below the
rotation threshold: the entry is buffered, the map updated, the framed
record appended, the size counter bumped by `4 + len(payload)`. -/
theorem Set_logged_no_rotate (db : Database) (k v : Bytes) (io : SetIO)
    (hopen : db.fileOpen = true) (hw1 : io.headerWriteOk = true)
    (hw2 : io.payloadWriteOk = true) (hnv : getKV db.data k ≠ some v)
    (hrot : db.logFileSize + ((encodeEntry (mkSetEntry db.data k v)).length + 4)
      < db.rotateSize) :
    Set db k v io =
      ({ db with
          data := setKV db.data k v,
          writeAhead := db.writeAhead ++ [mkSetEntry db.data k v],
          fileContents := db.fileContents ++ frameOf (encodeEntry (mkSetEntry db.data k v)),
          logFileSize := db.logFileSize + ((encodeEntry (mkSetEntry db.data k v)).length + 4) },
        none) := by
  cases hg : getKV db.data k with
  | none =>
    simp only [mkSetEntry, hg] at hrot ⊢
    simp only [Set, hg, setApply, hopen, hw1, hw2, if_true]
    rw [if_neg (by omega)]
    simp [frameOf, List.append_assoc]
  | some w =>
    have hne : ¬ w = v := fun hc => hnv (hc ▸ hg)
    simp only [mkSetEntry, hg] at hrot ⊢
    simp only [Set, hg, if_neg hne, setApply, hopen, hw1, hw2, if_true]
    rw [if_neg (by omega)]
    simp [frameOf, List.append_assoc]

/-- A logging `Set` that reaches the rotation threshold: additionally the
file is rotated — its bytes (old contents plus the new framed record)
move to `<path>_<timestamp>`, a fresh file is active, the counter is 0. -/
theorem Set_logged_rotate (db : Database) (k v : Bytes) (io : SetIO)
    (hopen : db.fileOpen = true) (hw1 : io.headerWriteOk = true)
    (hw2 : io.payloadWriteOk = true) (hnv : getKV db.data k ≠ some v)
    (hrot : db.rotateSize
      ≤ db.logFileSize + ((encodeEntry (mkSetEntry db.data k v)).length + 4)) :
    Set db k v io =
      ({ db with
          data := setKV db.data k v,
          writeAhead := db.writeAhead ++ [mkSetEntry db.data k v],
          fileContents := [],
          rotatedFiles := db.rotatedFiles ++
            [(db.logFile ++ "_" ++ io.timestamp,
              db.fileContents ++ frameOf (encodeEntry (mkSetEntry db.data k v)))],
          fileOpen := true,
          logFileSize := 0 },
        none) := by
  cases hg : getKV db.data k with
  | none =>
    simp only [mkSetEntry, hg] at hrot ⊢
    simp only [Set, hg, setApply, hopen, hw1, hw2, if_true]
    rw [if_pos (by omega)]
    simp [rotateLogFile, frameOf, List.append_assoc]
  | some w =>
    have hne : ¬ w = v := fun hc => hnv (hc ▸ hg)
    simp only [mkSetEntry, hg] at hrot ⊢
    simp only [Set, hg, if_neg hne, setApply, hopen, hw1, hw2, if_true]
    rw [if_pos (by omega)]
    simp [rotateLogFile, frameOf, List.append_assoc]

/-- A non-no-op `Set` with no open file handle: the map and the
write-ahead buffer are mutated, nothing touches the file or the size
counter, and no error is returned. -/
theorem Set_no_file (db : Database) (k v : Bytes) (io : SetIO)
    (hopen : db.fileOpen = false) (hnv : getKV db.data k ≠ some v) :
    Set db k v io =
      ({ db with
          data := setKV db.data k v,
          writeAhead := db.writeAhead ++ [mkSetEntry db.data k v] },
        none) := by
  cases hg : getKV db.data k with
  | none =>
    simp only [mkSetEntry, hg]
    simp [Set, hg, setApply, hopen]
  | some w =>
    have hne : ¬ w = v := fun hc => hnv (hc ▸ hg)
    simp only [mkSetEntry, hg]
    simp [Set, hg, if_neg hne, setApply, hopen]

/-- A non-no-op `Set` whose length-prefix write fails: the error is
returned, but the map and buffer keep the mutation and no bytes reach the
file. -/
theorem Set_header_write_fails (db : Database) (k v : Bytes) (io : SetIO)
    (hopen : db.fileOpen = true) (hw1 : io.headerWriteOk = false)
    (hnv : getKV db.data k ≠ some v) :
    Set db k v io =
      ({ db with
          data := setKV db.data k v,
          writeAhead := db.writeAhead ++ [mkSetEntry db.data k v] },
        some IoError.ioError) := by
  cases hg : getKV db.data k with
  | none =>
    simp only [mkSetEntry, hg]
    simp [Set, hg, setApply, hopen, hw1]
  | some w =>
    have hne : ¬ w = v := fun hc => hnv (hc ▸ hg)
    simp only [mkSetEntry, hg]
    simp [Set, hg, if_neg hne, setApply, hopen, hw1]

theorem mkSetEntry_key (m : Map) (k v : Bytes) : (mkSetEntry m k v).key = k := by
  unfold mkSetEntry
  cases getKV m k <;> rfl

theorem mkSetEntry_value (m : Map) (k v : Bytes) : (mkSetEntry m k v).value = v := by
  unfold mkSetEntry
  cases getKV m k <;> rfl

theorem encodeEntry_mkSetEntry_length (m : Map) (k v : Bytes) :
    (encodeEntry (mkSetEntry m k v)).length = 5 + k.length + v.length := by
  rw [encodeEntry_length, mkSetEntry_key, mkSetEntry_value]

theorem framesOf_append_singleton (es : List LogEntry) (e : LogEntry) :
    framesOf (es ++ [e]) = framesOf es ++ frameOf (encodeEntry e) := by
  simp [framesOf]

/-! ## Claim theorems -/

/-- Claim C1, counterexample: a log holding one framed DELETE entry for
key `[107]` with value `[118]`, replayed over a map where `[107]` is
bound to `[99]`.  The claim says a DELETE entry removes the key; the
replayer instead executes `db.data[entry.Key] = entry.Value` (line 219)
for every decoded entry, so the key is still present, now bound to the
DELETE entry's value. -/
theorem C1_counterexample :
    getKV (replayLoop
        (framesOf [{ op := Op.delete, key := [107], value := [118] }])
        [([107], [99])]).1 [107] = some [118] ∧
    (replayLoop (framesOf [{ op := Op.delete, key := [107], value := [118] }])
        [([107], [99])]).2 = none := by
  rw [replayLoop_framesOf _ _ (by decide)]
  exact ⟨by decide, rfl⟩

/-- Claim C1, amended: for every log entry decoded during replay, the
replayer sets `map[key] = value` regardless of the entry's operation;
INSERT, UPDATE and DELETE entries are all applied the same way, and no
entry removes a key. -/
theorem C1_replay_sets_for_every_op (op : Op) (k v rest : Bytes) (m : Map)
    (h : entryOk { op := op, key := k, value := v }) :
    replayLoop (frameOf (encodeEntry { op := op, key := k, value := v }) ++ rest) m
      = replayLoop rest (setKV m k v) :=
  replayLoop_frame _ _ _ _
    (decodeEntry_encodeEntry _ (entryOk_key_lt _ h)) h

theorem C1_witness :
    entryOk { op := Op.delete, key := [107], value := [118] } ∧
    replayLoop (frameOf (encodeEntry { op := Op.delete, key := [107], value := [118] }) ++ []) []
      = replayLoop [] (setKV [] [107] [118]) :=
  ⟨by decide, C1_replay_sets_for_every_op Op.delete [107] [118] [] [] (by decide)⟩

/-- Claim C2: `Delete` removes the key only from the in-memory map and
writes no DELETE record (lines 163-168); consequently, after a logged
`Set k v` followed by `Delete k`, replaying the resulting log file into a
fresh map yields a map in which `k` is still present with its last set
value `v`. -/
theorem C2_deleted_key_reappears_on_replay
    (db : Database) (es : List LogEntry) (k v : Bytes) (io : SetIO)
    (hfc : db.fileContents = framesOf es)
    (hes : ∀ e ∈ es, entryOk e)
    (hopen : db.fileOpen = true)
    (hw1 : io.headerWriteOk = true) (hw2 : io.payloadWriteOk = true)
    (hnv : getKV db.data k ≠ some v)
    (hkv : 5 + k.length + v.length < 4294967296)
    (hrot : db.logFileSize + (5 + k.length + v.length + 4) < db.rotateSize) :
    (Set db k v io).2 = none ∧
    getKV (Delete (Set db k v io).1 k).data k = none ∧
    (Delete (Set db k v io).1 k).fileContents = (Set db k v io).1.fileContents ∧
    (Delete (Set db k v io).1 k).writeAhead = (Set db k v io).1.writeAhead ∧
    (replayLoop (Delete (Set db k v io).1 k).fileContents []).2 = none ∧
    getKV (replayLoop (Delete (Set db k v io).1 k).fileContents []).1 k = some v := by
  have hlen := encodeEntry_mkSetEntry_length db.data k v
  have hok : entryOk (mkSetEntry db.data k v) := by
    unfold entryOk
    omega
  have hes' : ∀ e ∈ es ++ [mkSetEntry db.data k v], entryOk e := by
    intro e he
    rcases List.mem_append.mp he with h | h
    · exact hes e h
    · rw [List.mem_singleton.mp h]
      exact hok
  rw [Set_logged_no_rotate db k v io hopen hw1 hw2 hnv (by omega)]
  refine ⟨rfl, ?_, rfl, rfl, ?_, ?_⟩
  · exact getKV_delKV_self _ _
  · show (replayLoop (db.fileContents ++ frameOf (encodeEntry (mkSetEntry db.data k v))) []).2 = none
    rw [hfc, ← framesOf_append_singleton, replayLoop_framesOf _ _ hes']
  · show getKV (replayLoop (db.fileContents ++ frameOf (encodeEntry (mkSetEntry db.data k v))) []).1 k
      = some v
    rw [hfc, ← framesOf_append_singleton, replayLoop_framesOf _ _ hes']
    rw [getKV_applyEntries, lastWrite_append_singleton, mkSetEntry_key, mkSetEntry_value]
    simp

theorem C2_witness :
    (({ NewDatabase "database.bin" 32 with fileOpen := true } : Database).fileContents
        = framesOf []) ∧
    (∀ e ∈ ([] : List LogEntry), entryOk e) ∧
    (({ NewDatabase "database.bin" 32 with fileOpen := true } : Database).fileOpen = true) ∧
    (getKV ({ NewDatabase "database.bin" 32 with fileOpen := true } : Database).data [107]
        ≠ some [118]) ∧
    ((5 : Nat) + 1 + 1 < 4294967296) ∧
    (({ NewDatabase "database.bin" 32 with fileOpen := true } : Database).logFileSize
        + (5 + 1 + 1 + 4)
      < ({ NewDatabase "database.bin" 32 with fileOpen := true } : Database).rotateSize) ∧
    ((Set { NewDatabase "database.bin" 32 with fileOpen := true } [107] [118]
        { headerWriteOk := true, payloadWriteOk := true, timestamp := "t" }).2 = none ∧
      getKV (Delete (Set { NewDatabase "database.bin" 32 with fileOpen := true } [107] [118]
        { headerWriteOk := true, payloadWriteOk := true, timestamp := "t" }).1 [107]).data [107]
          = none ∧
      (Delete (Set { NewDatabase "database.bin" 32 with fileOpen := true } [107] [118]
        { headerWriteOk := true, payloadWriteOk := true, timestamp := "t" }).1 [107]).fileContents
        = (Set { NewDatabase "database.bin" 32 with fileOpen := true } [107] [118]
        { headerWriteOk := true, payloadWriteOk := true, timestamp := "t" }).1.fileContents ∧
      (Delete (Set { NewDatabase "database.bin" 32 with fileOpen := true } [107] [118]
        { headerWriteOk := true, payloadWriteOk := true, timestamp := "t" }).1 [107]).writeAhead
        = (Set { NewDatabase "database.bin" 32 with fileOpen := true } [107] [118]
        { headerWriteOk := true, payloadWriteOk := true, timestamp := "t" }).1.writeAhead ∧
      (replayLoop (Delete (Set { NewDatabase "database.bin" 32 with fileOpen := true } [107] [118]
        { headerWriteOk := true, payloadWriteOk := true, timestamp := "t" }).1 [107]).fileContents
        []).2 = none ∧
      getKV (replayLoop (Delete (Set { NewDatabase "database.bin" 32 with fileOpen := true }
        [107] [118]
        { headerWriteOk := true, payloadWriteOk := true, timestamp := "t" }).1 [107]).fileContents
        []).1 [107] = some [118]) :=
  ⟨rfl, by decide, rfl, by decide, by decide, by decide,
    C2_deleted_key_reappears_on_replay
      { NewDatabase "database.bin" 32 with fileOpen := true } [] [107] [118]
      { headerWriteOk := true, payloadWriteOk := true, timestamp := "t" }
      rfl (by decide) rfl rfl rfl (by decide) (by decide) (by decide)⟩

/-- Claim C3: `Set` with the key absent emits exactly one INSERT entry
and installs `v`; with the key present and a byte-different value it
emits exactly one UPDATE entry and installs `v`; with the key present
and a byte-identical value it emits no entry, mutates nothing, and
returns success; hence two consecutive `Set k v` calls produce exactly
one log entry and leave the map containing `v`. -/
theorem C3_set_case_analysis (db : Database) (k v : Bytes) (io io' : SetIO)
    (hopen : db.fileOpen = true) (hw1 : io.headerWriteOk = true)
    (hw2 : io.payloadWriteOk = true)
    (hrot : db.logFileSize + (5 + k.length + v.length + 4) < db.rotateSize) :
    (getKV db.data k = none →
      Set db k v io =
        ({ db with
            data := setKV db.data k v,
            writeAhead := db.writeAhead ++ [{ op := Op.insert, key := k, value := v }],
            fileContents := db.fileContents
              ++ frameOf (encodeEntry { op := Op.insert, key := k, value := v }),
            logFileSize := db.logFileSize + (5 + k.length + v.length + 4) }, none)) ∧
    (∀ w, getKV db.data k = some w → w ≠ v →
      Set db k v io =
        ({ db with
            data := setKV db.data k v,
            writeAhead := db.writeAhead ++ [{ op := Op.update, key := k, value := v }],
            fileContents := db.fileContents
              ++ frameOf (encodeEntry { op := Op.update, key := k, value := v }),
            logFileSize := db.logFileSize + (5 + k.length + v.length + 4) }, none)) ∧
    (getKV db.data k = some v → Set db k v io = (db, none)) ∧
    (getKV db.data k ≠ some v →
      Set (Set db k v io).1 k v io' = ((Set db k v io).1, none) ∧
      (Set db k v io).1.writeAhead = db.writeAhead ++ [mkSetEntry db.data k v] ∧
      (Set db k v io).1.fileContents = db.fileContents
        ++ frameOf (encodeEntry (mkSetEntry db.data k v)) ∧
      getKV (Set db k v io).1.data k = some v ∧
      (Set db k v io).2 = none) := by
  have hlen := encodeEntry_mkSetEntry_length db.data k v
  refine ⟨?_, ?_, ?_, ?_⟩
  · intro hg
    have hnv : getKV db.data k ≠ some v := by rw [hg]; exact fun h => Option.noConfusion h
    have h := Set_logged_no_rotate db k v io hopen hw1 hw2 hnv (by omega)
    rw [h]
    simp only [mkSetEntry, hg]
    rw [encodeEntry_length]
  · intro w hg hwv
    have hnv : getKV db.data k ≠ some v := by
      rw [hg]
      exact fun h => hwv (Option.some.injEq w v ▸ h)
    have h := Set_logged_no_rotate db k v io hopen hw1 hw2 hnv (by omega)
    rw [h]
    simp only [mkSetEntry, hg]
    rw [encodeEntry_length]
  · exact fun hg => Set_noop db k v io hg
  · intro hnv
    have h := Set_logged_no_rotate db k v io hopen hw1 hw2 hnv (by omega)
    rw [h]
    have hget : getKV (setKV db.data k v) k = some v := getKV_setKV_self _ _ _
    exact ⟨Set_noop _ k v io' hget, rfl, rfl, hget, rfl⟩

theorem C3_witness :
    (({ NewDatabase "database.bin" 32 with fileOpen := true } : Database).fileOpen = true) ∧
    (({ NewDatabase "database.bin" 32 with fileOpen := true } : Database).logFileSize
        + (5 + 1 + 1 + 4)
      < ({ NewDatabase "database.bin" 32 with fileOpen := true } : Database).rotateSize) ∧
    ((getKV ({ NewDatabase "database.bin" 32 with fileOpen := true } : Database).data [107] = none →
      Set { NewDatabase "database.bin" 32 with fileOpen := true } [107] [118]
          { headerWriteOk := true, payloadWriteOk := true, timestamp := "t" } =
        ({ { NewDatabase "database.bin" 32 with fileOpen := true } with
            data := setKV ({ NewDatabase "database.bin" 32 with fileOpen := true }
              : Database).data [107] [118],
            writeAhead := ({ NewDatabase "database.bin" 32 with fileOpen := true }
              : Database).writeAhead ++ [{ op := Op.insert, key := [107], value := [118] }],
            fileContents := ({ NewDatabase "database.bin" 32 with fileOpen := true }
              : Database).fileContents
              ++ frameOf (encodeEntry { op := Op.insert, key := [107], value := [118] }),
            logFileSize := ({ NewDatabase "database.bin" 32 with fileOpen := true }
              : Database).logFileSize + (5 + 1 + 1 + 4) }, none)) ∧
      (∀ w, getKV ({ NewDatabase "database.bin" 32 with fileOpen := true } : Database).data [107]
          = some w → w ≠ [118] →
        Set { NewDatabase "database.bin" 32 with fileOpen := true } [107] [118]
            { headerWriteOk := true, payloadWriteOk := true, timestamp := "t" } =
          ({ { NewDatabase "database.bin" 32 with fileOpen := true } with
              data := setKV ({ NewDatabase "database.bin" 32 with fileOpen := true }
                : Database).data [107] [118],
              writeAhead := ({ NewDatabase "database.bin" 32 with fileOpen := true }
                : Database).writeAhead ++ [{ op := Op.update, key := [107], value := [118] }],
              fileContents := ({ NewDatabase "database.bin" 32 with fileOpen := true }
                : Database).fileContents
                ++ frameOf (encodeEntry { op := Op.update, key := [107], value := [118] }),
              logFileSize := ({ NewDatabase "database.bin" 32 with fileOpen := true }
                : Database).logFileSize + (5 + 1 + 1 + 4) }, none)) ∧
      (getKV ({ NewDatabase "database.bin" 32 with fileOpen := true } : Database).data [107]
          = some [118] →
        Set { NewDatabase "database.bin" 32 with fileOpen := true } [107] [118]
            { headerWriteOk := true, payloadWriteOk := true, timestamp := "t" }
          = ({ NewDatabase "database.bin" 32 with fileOpen := true }, none)) ∧
      (getKV ({ NewDatabase "database.bin" 32 with fileOpen := true } : Database).data [107]
          ≠ some [118] →
        Set (Set { NewDatabase "database.bin" 32 with fileOpen := true } [107] [118]
            { headerWriteOk := true, payloadWriteOk := true, timestamp := "t" }).1 [107] [118]
            { headerWriteOk := true, payloadWriteOk := true, timestamp := "u" }
          = ((Set { NewDatabase "database.bin" 32 with fileOpen := true } [107] [118]
              { headerWriteOk := true, payloadWriteOk := true, timestamp := "t" }).1, none) ∧
        (Set { NewDatabase "database.bin" 32 with fileOpen := true } [107] [118]
            { headerWriteOk := true, payloadWriteOk := true, timestamp := "t" }).1.writeAhead
          = ({ NewDatabase "database.bin" 32 with fileOpen := true } : Database).writeAhead
            ++ [mkSetEntry ({ NewDatabase "database.bin" 32 with fileOpen := true }
                : Database).data [107] [118]] ∧
        (Set { NewDatabase "database.bin" 32 with fileOpen := true } [107] [118]
            { headerWriteOk := true, payloadWriteOk := true, timestamp := "t" }).1.fileContents
          = ({ NewDatabase "database.bin" 32 with fileOpen := true } : Database).fileContents
            ++ frameOf (encodeEntry (mkSetEntry ({ NewDatabase "database.bin" 32 with
                fileOpen := true } : Database).data [107] [118])) ∧
        getKV (Set { NewDatabase "database.bin" 32 with fileOpen := true } [107] [118]
            { headerWriteOk := true, payloadWriteOk := true, timestamp := "t" }).1.data [107]
          = some [118] ∧
        (Set { NewDatabase "database.bin" 32 with fileOpen := true } [107] [118]
            { headerWriteOk := true, payloadWriteOk := true, timestamp := "t" }).2 = none)) :=
  ⟨rfl, by decide,
    C3_set_case_analysis { NewDatabase "database.bin" 32 with fileOpen := true } [107] [118]
      { headerWriteOk := true, payloadWriteOk := true, timestamp := "t" }
      { headerWriteOk := true, payloadWriteOk := true, timestamp := "u" }
      rfl rfl rfl (by decide)⟩

/-- Claim C4, counterexample: on a fresh open store, a `Set` whose
length-prefix append fails returns the I/O error, but the in-memory map
is NOT left unchanged — it now holds the new binding, because `Set`
assigns `db.data[key] = value` (line 97) before attempting the appends
and never rolls back. -/
theorem C4_counterexample :
    (Set { NewDatabase "database.bin" 32 with fileOpen := true } [107] [118]
        { headerWriteOk := false, payloadWriteOk := false, timestamp := "t" }).2
      = some IoError.ioError ∧
    (Set { NewDatabase "database.bin" 32 with fileOpen := true } [107] [118]
        { headerWriteOk := false, payloadWriteOk := false, timestamp := "t" }).1.data
      = [([107], [118])] ∧
    ({ NewDatabase "database.bin" 32 with fileOpen := true } : Database).data = [] := by
  exact ⟨by decide, by decide, rfl⟩

/-- Claim C4, amended: if the append fails with an I/O error during
`Set`, the caller does receive the error, but the mutation is not
aborted: the in-memory map already holds the new value and the entry is
already in the write-ahead buffer (apply-then-log with no rollback), so
the map and the on-disk log diverge. -/
theorem C4_append_failure_keeps_map_mutation (db : Database) (k v : Bytes) (io : SetIO)
    (hopen : db.fileOpen = true) (hw1 : io.headerWriteOk = false)
    (hnv : getKV db.data k ≠ some v) :
    (Set db k v io).2 = some IoError.ioError ∧
    getKV (Set db k v io).1.data k = some v ∧
    (Set db k v io).1.writeAhead = db.writeAhead ++ [mkSetEntry db.data k v] ∧
    (Set db k v io).1.fileContents = db.fileContents := by
  rw [Set_header_write_fails db k v io hopen hw1 hnv]
  exact ⟨rfl, getKV_setKV_self _ _ _, rfl, rfl⟩

theorem C4_witness :
    (({ NewDatabase "database.bin" 32 with fileOpen := true } : Database).fileOpen = true) ∧
    (getKV ({ NewDatabase "database.bin" 32 with fileOpen := true } : Database).data [107]
      ≠ some [118]) ∧
    ((Set { NewDatabase "database.bin" 32 with fileOpen := true } [107] [118]
        { headerWriteOk := false, payloadWriteOk := true, timestamp := "t" }).2
      = some IoError.ioError ∧
    getKV (Set { NewDatabase "database.bin" 32 with fileOpen := true } [107] [118]
        { headerWriteOk := false, payloadWriteOk := true, timestamp := "t" }).1.data [107]
      = some [118] ∧
    (Set { NewDatabase "database.bin" 32 with fileOpen := true } [107] [118]
        { headerWriteOk := false, payloadWriteOk := true, timestamp := "t" }).1.writeAhead
      = ({ NewDatabase "database.bin" 32 with fileOpen := true } : Database).writeAhead
        ++ [mkSetEntry ({ NewDatabase "database.bin" 32 with fileOpen := true }
            : Database).data [107] [118]] ∧
    (Set { NewDatabase "database.bin" 32 with fileOpen := true } [107] [118]
        { headerWriteOk := false, payloadWriteOk := true, timestamp := "t" }).1.fileContents
      = ({ NewDatabase "database.bin" 32 with fileOpen := true } : Database).fileContents) :=
  ⟨rfl, by decide,
    C4_append_failure_keeps_map_mutation
      { NewDatabase "database.bin" 32 with fileOpen := true } [107] [118]
      { headerWriteOk := false, payloadWriteOk := true, timestamp := "t" }
      rfl rfl (by decide)⟩

/-- Claim C5: a log file of complete framed records followed by a
truncated tail — a short length prefix (< 4 bytes) or a complete prefix
whose payload is cut off by end-of-file — replays with no error to the
same map as the complete records alone. -/
theorem C5_truncated_tail_tolerated (es : List LogEntry) (tail : Bytes) (m : Map)
    (hes : ∀ e ∈ es, entryOk e)
    (htail : tail.length < 4 ∨
      (4 ≤ tail.length ∧ (tail.drop 4).length < readU32LE (tail.take 4))) :
    replayLoop (framesOf es ++ tail) m = (applyEntries es m, none) ∧
    replayLoop (framesOf es) m = (applyEntries es m, none) := by
  refine ⟨?_, replayLoop_framesOf es m hes⟩
  rw [replayLoop_framesOf_append es tail m hes]
  rcases htail with h | ⟨h4, hp⟩
  · exact replayLoop_short _ _ h
  · exact replayLoop_torn _ _ h4 hp

theorem C5_witness :
    (∀ e ∈ [{ op := Op.insert, key := [107], value := [118] }], entryOk e) ∧
    (([1, 2] : Bytes).length < 4 ∨
      (4 ≤ ([1, 2] : Bytes).length ∧
        (([1, 2] : Bytes).drop 4).length < readU32LE (([1, 2] : Bytes).take 4))) ∧
    (replayLoop (framesOf [{ op := Op.insert, key := [107], value := [118] }] ++ [1, 2]) []
        = (applyEntries [{ op := Op.insert, key := [107], value := [118] }] [], none) ∧
      replayLoop (framesOf [{ op := Op.insert, key := [107], value := [118] }]) []
        = (applyEntries [{ op := Op.insert, key := [107], value := [118] }] [], none)) :=
  ⟨by decide, by decide,
    C5_truncated_tail_tolerated [{ op := Op.insert, key := [107], value := [118] }]
      [1, 2] [] (by decide) (by decide)⟩

/-- Claim C6: a log file whose records are followed by a record with a
fully readable length prefix but a payload that fails to decode makes
replay abort with `CorruptEntry` (it is not skipped), and the map holds
exactly the records preceding the corrupt one. -/
theorem C6_corrupt_payload_aborts (es : List LogEntry) (p suffix : Bytes) (m : Map)
    (hes : ∀ e ∈ es, entryOk e) (hd : decodeEntry p = none)
    (hlen : p.length < 4294967296) :
    replayLoop (framesOf es ++ (frameOf p ++ suffix)) m
      = (applyEntries es m, some ReplayError.corruptEntry) := by
  rw [replayLoop_framesOf_append es _ m hes,
    replayLoop_frame_corrupt p suffix _ hd hlen]

theorem C6_witness :
    (∀ e ∈ [{ op := Op.insert, key := [107], value := [118] }], entryOk e) ∧
    decodeEntry [5] = none ∧
    ([5] : Bytes).length < 4294967296 ∧
    replayLoop (framesOf [{ op := Op.insert, key := [107], value := [118] }]
        ++ (frameOf [5] ++ [])) []
      = (applyEntries [{ op := Op.insert, key := [107], value := [118] }] [],
          some ReplayError.corruptEntry) :=
  ⟨by decide, by decide, by decide,
    C6_corrupt_payload_aborts [{ op := Op.insert, key := [107], value := [118] }]
      [5] [] [] (by decide) (by decide) (by decide)⟩

/-- Claim C7: a logged `Set` increments the size counter by exactly
`4 + len(encoded payload)`; when the counter reaches or exceeds
`rotateSize`, rotation runs — the file's bytes move to
`<path>_<timestamp>`, a fresh file is open at `<path>`, and the counter
resets to 0, which is below any positive threshold. -/
theorem C7_size_accounting_and_rotation (db : Database) (k v : Bytes) (io : SetIO)
    (hopen : db.fileOpen = true) (hw1 : io.headerWriteOk = true)
    (hw2 : io.payloadWriteOk = true) (hnv : getKV db.data k ≠ some v) :
    (db.logFileSize + (5 + k.length + v.length + 4) < db.rotateSize →
      (Set db k v io).1.logFileSize
        = db.logFileSize + ((encodeEntry (mkSetEntry db.data k v)).length + 4) ∧
      (Set db k v io).1.rotatedFiles = db.rotatedFiles ∧
      (Set db k v io).1.fileContents
        = db.fileContents ++ frameOf (encodeEntry (mkSetEntry db.data k v))) ∧
    (db.rotateSize ≤ db.logFileSize + (5 + k.length + v.length + 4) →
      (Set db k v io).1.fileOpen = true ∧
      (Set db k v io).1.fileContents = [] ∧
      (Set db k v io).1.logFileSize = 0 ∧
      (Set db k v io).1.rotatedFiles = db.rotatedFiles ++
        [(db.logFile ++ "_" ++ io.timestamp,
          db.fileContents ++ frameOf (encodeEntry (mkSetEntry db.data k v)))] ∧
      (0 < db.rotateSize →
        (Set db k v io).1.logFileSize < (Set db k v io).1.rotateSize)) := by
  have hlen := encodeEntry_mkSetEntry_length db.data k v
  constructor
  · intro hrot
    rw [Set_logged_no_rotate db k v io hopen hw1 hw2 hnv (by omega)]
    exact ⟨rfl, rfl, rfl⟩
  · intro hrot
    rw [Set_logged_rotate db k v io hopen hw1 hw2 hnv (by omega)]
    exact ⟨rfl, rfl, rfl, rfl, fun h => h⟩

theorem C7_witness :
    (({ NewDatabase "database.bin" 32 with fileOpen := true } : Database).fileOpen = true) ∧
    (getKV ({ NewDatabase "database.bin" 32 with fileOpen := true } : Database).data [107]
      ≠ some [118]) ∧
    ((({ NewDatabase "database.bin" 32 with fileOpen := true } : Database).logFileSize
        + (5 + 1 + 1 + 4)
        < ({ NewDatabase "database.bin" 32 with fileOpen := true } : Database).rotateSize →
      (Set { NewDatabase "database.bin" 32 with fileOpen := true } [107] [118]
          { headerWriteOk := true, payloadWriteOk := true, timestamp := "t" }).1.logFileSize
        = ({ NewDatabase "database.bin" 32 with fileOpen := true } : Database).logFileSize
          + ((encodeEntry (mkSetEntry ({ NewDatabase "database.bin" 32 with fileOpen := true }
              : Database).data [107] [118])).length + 4) ∧
      (Set { NewDatabase "database.bin" 32 with fileOpen := true } [107] [118]
          { headerWriteOk := true, payloadWriteOk := true, timestamp := "t" }).1.rotatedFiles
        = ({ NewDatabase "database.bin" 32 with fileOpen := true } : Database).rotatedFiles ∧
      (Set { NewDatabase "database.bin" 32 with fileOpen := true } [107] [118]
          { headerWriteOk := true, payloadWriteOk := true, timestamp := "t" }).1.fileContents
        = ({ NewDatabase "database.bin" 32 with fileOpen := true } : Database).fileContents
          ++ frameOf (encodeEntry (mkSetEntry ({ NewDatabase "database.bin" 32 with
              fileOpen := true } : Database).data [107] [118]))) ∧
    (({ NewDatabase "database.bin" 32 with fileOpen := true } : Database).rotateSize
        ≤ ({ NewDatabase "database.bin" 32 with fileOpen := true } : Database).logFileSize
          + (5 + 1 + 1 + 4) →
      (Set { NewDatabase "database.bin" 32 with fileOpen := true } [107] [118]
          { headerWriteOk := true, payloadWriteOk := true, timestamp := "t" }).1.fileOpen
        = true ∧
      (Set { NewDatabase "database.bin" 32 with fileOpen := true } [107] [118]
          { headerWriteOk := true, payloadWriteOk := true, timestamp := "t" }).1.fileContents
        = [] ∧
      (Set { NewDatabase "database.bin" 32 with fileOpen := true } [107] [118]
          { headerWriteOk := true, payloadWriteOk := true, timestamp := "t" }).1.logFileSize
        = 0 ∧
      (Set { NewDatabase "database.bin" 32 with fileOpen := true } [107] [118]
          { headerWriteOk := true, payloadWriteOk := true, timestamp := "t" }).1.rotatedFiles
        = ({ NewDatabase "database.bin" 32 with fileOpen := true } : Database).rotatedFiles ++
          [(({ NewDatabase "database.bin" 32 with fileOpen := true } : Database).logFile
              ++ "_" ++ "t",
            ({ NewDatabase "database.bin" 32 with fileOpen := true } : Database).fileContents
              ++ frameOf (encodeEntry (mkSetEntry ({ NewDatabase "database.bin" 32 with
                  fileOpen := true } : Database).data [107] [118])))] ∧
      (0 < ({ NewDatabase "database.bin" 32 with fileOpen := true } : Database).rotateSize →
        (Set { NewDatabase "database.bin" 32 with fileOpen := true } [107] [118]
            { headerWriteOk := true, payloadWriteOk := true, timestamp := "t" }).1.logFileSize
          < (Set { NewDatabase "database.bin" 32 with fileOpen := true } [107] [118]
              { headerWriteOk := true, payloadWriteOk := true,
                timestamp := "t" }).1.rotateSize))) :=
  ⟨rfl, by decide,
    C7_size_accounting_and_rotation { NewDatabase "database.bin" 32 with fileOpen := true }
      [107] [118] { headerWriteOk := true, payloadWriteOk := true, timestamp := "t" }
      rfl rfl rfl (by decide)⟩

/-- Claim C8: replaying a well-formed framed log twice into the same map
yields the same final map contents as replaying it once, and neither
replay reports an error. -/
theorem C8_replay_idempotent (es : List LogEntry) (m : Map) (k : Bytes)
    (hes : ∀ e ∈ es, entryOk e) :
    (replayLoop (framesOf es) m).2 = none ∧
    getKV (replayLoop (framesOf es) ((replayLoop (framesOf es) m).1)).1 k
      = getKV (replayLoop (framesOf es) m).1 k := by
  rw [replayLoop_framesOf es m hes]
  rw [replayLoop_framesOf es _ hes]
  refine ⟨rfl, ?_⟩
  show getKV (applyEntries es (applyEntries es m)) k = getKV (applyEntries es m) k
  rw [getKV_applyEntries, getKV_applyEntries]
  cases lastWrite es k <;> simp

theorem C8_witness :
    (∀ e ∈ [{ op := Op.insert, key := [107], value := [118] }], entryOk e) ∧
    ((replayLoop (framesOf [{ op := Op.insert, key := [107], value := [118] }]) []).2
      = none ∧
    getKV (replayLoop (framesOf [{ op := Op.insert, key := [107], value := [118] }])
        ((replayLoop (framesOf [{ op := Op.insert, key := [107], value := [118] }]) []).1)).1 [107]
      = getKV (replayLoop (framesOf [{ op := Op.insert, key := [107], value := [118] }]) []).1
          [107]) :=
  ⟨by decide,
    C8_replay_idempotent [{ op := Op.insert, key := [107], value := [118] }] [] [107]
      (by decide)⟩

/-- Claim C9, behavior at the failing input: one tick of the background
flusher on a store whose write-ahead buffer holds one entry that `Set`
already appended to the file.  Instead of only syncing, the tick
re-marshals the whole backlog and appends the payload bytes (without
length prefixes) to the log file again, duplicating the record. -/
theorem C9_flush_tick_appends_backlog :
    (flushTick
        { data := [([107], [118])],
          writeAhead := [{ op := Op.insert, key := [107], value := [118] }],
          logFile := "database.bin", fileOpen := true,
          fileContents := frameOf (encodeEntry { op := Op.insert, key := [107], value := [118] }),
          rotatedFiles := [], logFileSize := 11,
          rotateSize := 32 }).fileContents
      = frameOf (encodeEntry { op := Op.insert, key := [107], value := [118] })
        ++ encodeEntry { op := Op.insert, key := [107], value := [118] } ∧
    (flushTick
        { data := [([107], [118])],
          writeAhead := [{ op := Op.insert, key := [107], value := [118] }],
          logFile := "database.bin", fileOpen := true,
          fileContents := frameOf (encodeEntry { op := Op.insert, key := [107], value := [118] }),
          rotatedFiles := [], logFileSize := 11,
          rotateSize := 32 }).fileContents
      ≠ frameOf (encodeEntry { op := Op.insert, key := [107], value := [118] }) := by
  exact ⟨by decide, by decide⟩

/-- Claim C10: a non-no-op `Set` when the log file has not been opened
still returns success and mutates the in-memory map and the write-ahead
buffer, while writing nothing to the file and leaving the size counter
unchanged. -/
theorem C10_set_without_open_file (db : Database) (k v : Bytes) (io : SetIO)
    (hopen : db.fileOpen = false) (hnv : getKV db.data k ≠ some v) :
    (Set db k v io).2 = none ∧
    (Set db k v io).1.data = setKV db.data k v ∧
    (Set db k v io).1.writeAhead = db.writeAhead ++ [mkSetEntry db.data k v] ∧
    (Set db k v io).1.fileContents = db.fileContents ∧
    (Set db k v io).1.logFileSize = db.logFileSize := by
  rw [Set_no_file db k v io hopen hnv]
  exact ⟨rfl, rfl, rfl, rfl, rfl⟩

theorem C10_witness :
    ((NewDatabase "database.bin" 32).fileOpen = false) ∧
    (getKV (NewDatabase "database.bin" 32).data [107] ≠ some [118]) ∧
    ((Set (NewDatabase "database.bin" 32) [107] [118]
        { headerWriteOk := true, payloadWriteOk := true, timestamp := "t" }).2 = none ∧
    (Set (NewDatabase "database.bin" 32) [107] [118]
        { headerWriteOk := true, payloadWriteOk := true, timestamp := "t" }).1.data
      = setKV (NewDatabase "database.bin" 32).data [107] [118] ∧
    (Set (NewDatabase "database.bin" 32) [107] [118]
        { headerWriteOk := true, payloadWriteOk := true, timestamp := "t" }).1.writeAhead
      = (NewDatabase "database.bin" 32).writeAhead
        ++ [mkSetEntry (NewDatabase "database.bin" 32).data [107] [118]] ∧
    (Set (NewDatabase "database.bin" 32) [107] [118]
        { headerWriteOk := true, payloadWriteOk := true, timestamp := "t" }).1.fileContents
      = (NewDatabase "database.bin" 32).fileContents ∧
    (Set (NewDatabase "database.bin" 32) [107] [118]
        { headerWriteOk := true, payloadWriteOk := true, timestamp := "t" }).1.logFileSize
      = (NewDatabase "database.bin" 32).logFileSize) :=
  ⟨rfl, by decide,
    C10_set_without_open_file (NewDatabase "database.bin" 32) [107] [118]
      { headerWriteOk := true, payloadWriteOk := true, timestamp := "t" }
      rfl (by decide)⟩

end DataStore
